import Mathlib

/-!
Shallow embedding of the TMS9918A VDP emulator core (src/tms9918_core.c)
and verification of its specification claims.

Conventions used throughout the embedding:
* C byte values are Nat, kept below 256 by masking with `% 256` exactly where
  the C code's uint8_t types truncate (function parameters, stores).
* The 16-bit `currentAddress` field (unsigned short) wraps with `% 65536`.
* C bit masks of the form `x & (2^k - 1)` are written `x % 2^k`; single-bit
  tests `x & (1 << b)` are written `Nat.testBit x b`; C `|` is `|||`.
* VRAM and the register file are total functions `Nat → Nat`; the data-port
  operations mask indices with `% 16384` (as the C code masks with 0x3fff)
  and register access masks with `% 8`, exactly where the C code does.
* C `int` arithmetic that can go negative (sprite coordinates) uses Int,
  with C truncating division written `Int.tdiv`.
* The C API takes a possibly-NULL pointer; the API layer models the handle
  as `Option VrEmuTms9918a` and a NULL dereference as `Except.error ()`.
-/

/-- Modelled from the spec: the display-mode enumeration
{Graphics I, Graphics II, Multicolor, Text} (vrEmuTms9918aMode in the
missing header tms9918_core.h). -/
inductive TmsMode where
  | graphicsI : TmsMode
  | graphicsII : TmsMode
  | multicolor : TmsMode
  | text : TmsMode
deriving DecidableEq

/-- Modelled from the spec: palette color index 0, TMS_TRANSPARENT
(first entry of the 16-color palette enumerated in the spec). -/
def TMS_TRANSPARENT : Nat := 0

/-- Modelled from the spec: palette color index 1, TMS_BLACK
(second entry of the 16-color palette enumerated in the spec). -/
def TMS_BLACK : Nat := 1

/-- Modelled from the spec: the visible horizontal pixel count,
TMS9918A_PIXELS_X = 256. -/
def TMS9918A_PIXELS_X : Nat := 256

/-- Modelled from the spec: the visible scanline count,
TMS9918A_PIXELS_Y = 192. -/
def TMS9918A_PIXELS_Y : Nat := 192

/-- The private VDP state struct vrEmuTMS9918a_s: 16 KiB VRAM, eight
registers, status byte, address-phase flag (lastMode), 16-bit current
address, cached display mode and the per-scanline sprite occupancy
bitmap. -/
structure VrEmuTms9918a where
  vram : Nat → Nat
  registers : Nat → Nat
  status : Nat
  lastMode : Nat
  currentAddress : Nat
  mode : TmsMode
  rowSpriteBits : Nat → Nat

/-- A scanline pixel buffer (uint8_t pixels[TMS9918A_PIXELS_X]). -/
abbrev Pixels := Nat → Nat

/-- tmsMode: derive the current display mode from R0 bit 1 (Graphics II
wins) and R1 bits 4..3. -/
def tmsMode (tms : VrEmuTms9918a) : TmsMode :=
  if (tms.registers 0).testBit 1 then TmsMode.graphicsII
  else
    match tms.registers 1 / 8 % 4 with
    | 0 => TmsMode.graphicsI
    | 1 => TmsMode.multicolor
    | 2 => TmsMode.text
    | _ => TmsMode.graphicsI

/-- tmsSpriteSize: R1 bit 1 (0 = 8x8, 1 = 16x16). -/
def tmsSpriteSize (tms : VrEmuTms9918a) : Nat :=
  tms.registers 1 / 2 % 2

/-- tmsSpriteMag: R1 bit 0 (0 = 1x, 1 = 2x). -/
def tmsSpriteMag (tms : VrEmuTms9918a) : Nat :=
  tms.registers 1 % 2

/-- tmsNameTableAddr: (R2 & 0x0f) << 10. -/
def tmsNameTableAddr (tms : VrEmuTms9918a) : Nat :=
  tms.registers 2 % 16 * 1024

/-- tmsColorTableAddr: R3 << 6, with only bit 7 contributing in
Graphics II. -/
def tmsColorTableAddr (tms : VrEmuTms9918a) : Nat :=
  if tms.mode = TmsMode.graphicsII then tms.registers 3 / 128 % 2 * 128 * 64
  else tms.registers 3 * 64

/-- tmsPatternTableAddr: (R4 & 0x07) << 11, with only bit 2 contributing
in Graphics II. -/
def tmsPatternTableAddr (tms : VrEmuTms9918a) : Nat :=
  if tms.mode = TmsMode.graphicsII then tms.registers 4 / 4 % 2 * 4 * 2048
  else tms.registers 4 % 8 * 2048

/-- tmsSpriteAttrTableAddr: (R5 & 0x7f) << 7. -/
def tmsSpriteAttrTableAddr (tms : VrEmuTms9918a) : Nat :=
  tms.registers 5 % 128 * 128

/-- tmsSpritePatternTableAddr: (R6 & 0x07) << 11. -/
def tmsSpritePatternTableAddr (tms : VrEmuTms9918a) : Nat :=
  tms.registers 6 % 8 * 2048

/-- vrEmuTms9918aDisplayEnabled on a non-NULL instance: R1 bit 6
(BLANK flag). -/
def vrEmuTms9918aDisplayEnabled (tms : VrEmuTms9918a) : Bool :=
  (tms.registers 1).testBit 6

/-- tmsMainBgColor: R7 low nibble when the display is enabled, TMS_BLACK
otherwise. -/
def tmsMainBgColor (tms : VrEmuTms9918a) : Nat :=
  (if vrEmuTms9918aDisplayEnabled tms then tms.registers 7 else TMS_BLACK) % 16

/-- tmsMainFgColor: R7 high nibble, with transparent replaced by the
main background color. -/
def tmsMainFgColor (tms : VrEmuTms9918a) : Nat :=
  let c := tms.registers 7 / 16
  if c = TMS_TRANSPARENT then tmsMainBgColor tms else c

/-- tmsFgColor: high nibble of a color byte, transparent replaced by the
main background color. -/
def tmsFgColor (tms : VrEmuTms9918a) (colorByte : Nat) : Nat :=
  let c := colorByte / 16
  if c = TMS_TRANSPARENT then tmsMainBgColor tms else c

/-- tmsBgColor: low nibble of a color byte, transparent replaced by the
main background color. -/
def tmsBgColor (tms : VrEmuTms9918a) (colorByte : Nat) : Nat :=
  let c := colorByte % 16
  if c = TMS_TRANSPARENT then tmsMainBgColor tms else c

/-- vrEmuTms9918aReset: zero the current address, the phase flag, the
status byte and the eight registers, and fill the 16384 VRAM bytes with
0xFF. The cached mode field is not touched by the C code. -/
def vrEmuTms9918aReset (tms : VrEmuTms9918a) : VrEmuTms9918a :=
  { tms with
    currentAddress := 0
    lastMode := 0
    status := 0
    registers := fun r => if r < 8 then 0 else tms.registers r
    vram := fun a => if a < 16384 then 0xFF else tms.vram a }

/-- vrEmuTms9918aWriteAddr: two-phase address/register write latch. -/
def vrEmuTms9918aWriteAddr (tms : VrEmuTms9918a) (data : Nat) : VrEmuTms9918a :=
  let data := data % 256
  if tms.lastMode ≠ 0 then
    if data.testBit 7 then
      let tms1 := { tms with
        registers := Function.update tms.registers (data % 8) (tms.currentAddress % 256) }
      { tms1 with mode := tmsMode tms1, lastMode := 0 }
    else
      { tms with
        currentAddress := (tms.currentAddress ||| (data % 64) <<< 8) % 65536
        lastMode := 0 }
  else
    { tms with currentAddress := data, lastMode := 1 }

/-- vrEmuTms9918aWriteData: store the byte at the masked current address
and post-increment the 16-bit address field. -/
def vrEmuTms9918aWriteData (tms : VrEmuTms9918a) (data : Nat) : VrEmuTms9918a :=
  { tms with
    vram := Function.update tms.vram (tms.currentAddress % 16384) (data % 256)
    currentAddress := (tms.currentAddress + 1) % 65536 }

/-- vrEmuTms9918aReadStatus: return the status byte, then clear the INT
(0x80) and COL (0x20) bits, i.e. keep only the bits of 0x5F. -/
def vrEmuTms9918aReadStatus (tms : VrEmuTms9918a) : Nat × VrEmuTms9918a :=
  (tms.status, { tms with status := tms.status &&& 0x5F })

/-- vrEmuTms9918aReadData: return the byte at the masked current address
and post-increment the 16-bit address field. -/
def vrEmuTms9918aReadData (tms : VrEmuTms9918a) : Nat × VrEmuTms9918a :=
  (tms.vram (tms.currentAddress % 16384),
   { tms with currentAddress := (tms.currentAddress + 1) % 65536 })

/-- vrEmuTms9918aReadDataNoInc: return the byte at the masked current
address without moving the pointer. -/
def vrEmuTms9918aReadDataNoInc (tms : VrEmuTms9918a) : Nat :=
  tms.vram (tms.currentAddress % 16384)

/-- A fixed reference state used as a concrete test vector: the state an
instance is in right after a reset (with the cached mode at Graphics I). -/
def initState : VrEmuTms9918a :=
  { vram := fun _ => 0xFF
    registers := fun _ => 0
    status := 0
    lastMode := 0
    currentAddress := 0
    mode := TmsMode.graphicsI
    rowSpriteBits := fun _ => 0 }

/-- Or of values from disjoint bit ranges is addition: if a < 2^n then
b * 2^n ||| a = b * 2^n + a. -/
theorem mul_two_pow_or_eq_add : (n : Nat) → (a b : Nat) → a < 2 ^ n →
    b * 2 ^ n ||| a = b * 2 ^ n + a
  | 0, a, _, ha => by
    interval_cases a
    simp
  | n+1, a, b, _ => by
    have heven : b * 2 ^ (n+1) % 2 = 0 := by
      rw [Nat.pow_succ, ← Nat.mul_assoc]
      exact Nat.mul_mod_left _ 2
    have hhalf : b * 2 ^ (n+1) / 2 = b * 2 ^ n := by
      rw [Nat.pow_succ, ← Nat.mul_assoc]
      exact Nat.mul_div_cancel _ (by omega)
    have hx : (b * 2 ^ (n+1) ||| a) =
        2 * ((b * 2 ^ (n+1) ||| a) / 2) + (b * 2 ^ (n+1) ||| a) % 2 := by
      omega
    have hdiv : (b * 2 ^ (n+1) ||| a) / 2 = b * 2 ^ n ||| a / 2 := by
      rw [Nat.or_div_two, hhalf]
    have hmod : (b * 2 ^ (n+1) ||| a) % 2 = a % 2 := by
      rcases Nat.mod_two_eq_zero_or_one a with h | h
      · rcases Nat.mod_two_eq_zero_or_one (b * 2 ^ (n+1) ||| a) with h' | h'
        · omega
        · rw [Nat.or_mod_two_eq_one] at h'
          rcases h' with h' | h' <;> omega
      · have hone : (b * 2 ^ (n+1) ||| a) % 2 = 1 := by
          rw [Nat.or_mod_two_eq_one]
          exact Or.inr h
        omega
    have hlt : a / 2 < 2 ^ n := by
      have hsucc : (2:Nat) ^ (n+1) = 2 ^ n * 2 := Nat.pow_succ ..
      omega
    have ih := mul_two_pow_or_eq_add n (a / 2) b hlt
    have hexp : b * 2 ^ (n+1) = 2 * (b * 2 ^ n) := by ring
    rw [hx, hdiv, hmod, ih, hexp]
    omega

/-- claim C1: write_address is a two-phase latch: a first-phase write of
byte b1 latches b1 as the low address byte and moves to second phase; a
second-phase write of byte b2 with bit 7 clear sets the current address
to (b2 & 0x3F) << 8 | b1, while a second-phase write with bit 7 set
writes the previously latched low byte b1 (not b2) into register
b2 & 0x07; in both second-phase cases the latch returns to first
phase. -/
theorem claim_C1_write_address_two_phase (s : VrEmuTms9918a) (b1 b2 : Nat)
    (hphase : s.lastMode = 0) (hb1 : b1 < 256) (hb2 : b2 < 256) :
    (vrEmuTms9918aWriteAddr s b1).currentAddress = b1 ∧
    (vrEmuTms9918aWriteAddr s b1).lastMode = 1 ∧
    (b2.testBit 7 = true →
      (vrEmuTms9918aWriteAddr (vrEmuTms9918aWriteAddr s b1) b2).registers (b2 % 8) = b1 ∧
      (vrEmuTms9918aWriteAddr (vrEmuTms9918aWriteAddr s b1) b2).lastMode = 0) ∧
    (b2.testBit 7 = false →
      (vrEmuTms9918aWriteAddr (vrEmuTms9918aWriteAddr s b1) b2).currentAddress =
        (b2 % 64) <<< 8 ||| b1 ∧
      (vrEmuTms9918aWriteAddr (vrEmuTms9918aWriteAddr s b1) b2).lastMode = 0) := by
  have hm1 : b1 % 256 = b1 := Nat.mod_eq_of_lt hb1
  have hm2 : b2 % 256 = b2 := Nat.mod_eq_of_lt hb2
  have hs1 : vrEmuTms9918aWriteAddr s b1 =
      { s with currentAddress := b1, lastMode := 1 } := by
    simp [vrEmuTms9918aWriteAddr, hphase, hm1]
  refine ⟨by rw [hs1], by rw [hs1], ?_, ?_⟩
  · intro hbit
    rw [hs1]
    simp only [vrEmuTms9918aWriteAddr, hm2, hbit]
    simp [Function.update_same, hm1]
  · intro hbit
    rw [hs1]
    simp only [vrEmuTms9918aWriteAddr, hm2, hbit]
    have hor : b1 ||| (b2 % 64) <<< 8 = (b2 % 64) <<< 8 ||| b1 := Nat.lor_comm ..
    have hval : (b2 % 64) <<< 8 ||| b1 = (b2 % 64) * 256 + b1 := by
      have h := mul_two_pow_or_eq_add 8 b1 (b2 % 64) (by omega)
      rw [Nat.shiftLeft_eq]
      simpa using h
    have hlt : (b2 % 64) <<< 8 ||| b1 < 65536 := by
      rw [hval]
      omega
    rw [hor, Nat.mod_eq_of_lt hlt]
    constructor <;> simp

/-- Witness for claim C1 at the spec's concrete scenario: after reset,
write_address(0x12) then write_address(0x34) leaves the current address
0x3412 and the latch back in first phase. -/
theorem claim_C1_write_address_two_phase_witness :
    initState.lastMode = 0 ∧
    (vrEmuTms9918aWriteAddr (vrEmuTms9918aWriteAddr initState 0x12) 0x34).currentAddress =
      (0x34 % 64) <<< 8 ||| 0x12 := by
  refine ⟨rfl, ?_⟩
  exact ((claim_C1_write_address_two_phase initState 0x12 0x34 rfl (by omega)
    (by omega)).2.2.2 (by decide)).1

/-- A concrete pre-reset state whose cached mode is Text, exhibiting that
vrEmuTms9918aReset leaves the cached mode field stale. -/
def staleModeState : VrEmuTms9918a :=
  { vram := fun _ => 0
    registers := fun _ => 7
    status := 5
    lastMode := 1
    currentAddress := 123
    mode := TmsMode.text
    rowSpriteBits := fun _ => 1 }

/-- claim C2 (code bug): reset zeroes the address, phase flag, status and
registers and fills VRAM with 0xFF, but it does not recompute the cached
display mode: resetting a state whose cached mode is Text leaves the
mode Text, not Graphics I as the claim requires. -/
theorem claim_C2_reset_leaves_mode_stale :
    (vrEmuTms9918aReset staleModeState).currentAddress = 0 ∧
    (vrEmuTms9918aReset staleModeState).lastMode = 0 ∧
    (vrEmuTms9918aReset staleModeState).status = 0 ∧
    (vrEmuTms9918aReset staleModeState).registers 0 = 0 ∧
    (vrEmuTms9918aReset staleModeState).registers 7 = 0 ∧
    (vrEmuTms9918aReset staleModeState).vram 0 = 0xFF ∧
    (vrEmuTms9918aReset staleModeState).vram 16383 = 0xFF ∧
    tmsMode (vrEmuTms9918aReset staleModeState) = TmsMode.graphicsI ∧
    (vrEmuTms9918aReset staleModeState).mode = TmsMode.text := by
  refine ⟨rfl, rfl, rfl, ?_, ?_, ?_, ?_, ?_, rfl⟩ <;> decide

/-- claim C3: read_status returns the status byte's value before any
clearing, and as its only state change clears bit 7 (INT) and bit 5
(COL) while leaving bit 6 (5S) and bits 0..4 unchanged; a second
read_status with no intervening events returns the first value with
bits 7 and 5 cleared. -/
theorem claim_C3_read_status_clears_int_col (s : VrEmuTms9918a) :
    (vrEmuTms9918aReadStatus s).1 = s.status ∧
    (vrEmuTms9918aReadStatus s).2.status = s.status &&& 0x5F ∧
    (vrEmuTms9918aReadStatus s).2.status.testBit 7 = false ∧
    (vrEmuTms9918aReadStatus s).2.status.testBit 5 = false ∧
    (vrEmuTms9918aReadStatus s).2.status.testBit 6 = s.status.testBit 6 ∧
    (vrEmuTms9918aReadStatus s).2.status.testBit 0 = s.status.testBit 0 ∧
    (vrEmuTms9918aReadStatus s).2.status.testBit 1 = s.status.testBit 1 ∧
    (vrEmuTms9918aReadStatus s).2.status.testBit 2 = s.status.testBit 2 ∧
    (vrEmuTms9918aReadStatus s).2.status.testBit 3 = s.status.testBit 3 ∧
    (vrEmuTms9918aReadStatus s).2.status.testBit 4 = s.status.testBit 4 ∧
    (vrEmuTms9918aReadStatus s).2.vram = s.vram ∧
    (vrEmuTms9918aReadStatus s).2.registers = s.registers ∧
    (vrEmuTms9918aReadStatus s).2.currentAddress = s.currentAddress ∧
    (vrEmuTms9918aReadStatus s).2.lastMode = s.lastMode ∧
    (vrEmuTms9918aReadStatus s).2.mode = s.mode ∧
    (vrEmuTms9918aReadStatus s).2.rowSpriteBits = s.rowSpriteBits ∧
    (vrEmuTms9918aReadStatus (vrEmuTms9918aReadStatus s).2).1 = s.status &&& 0x5F := by
  have t0 : Nat.testBit 95 0 = true := by decide
  have t1 : Nat.testBit 95 1 = true := by decide
  have t2 : Nat.testBit 95 2 = true := by decide
  have t3 : Nat.testBit 95 3 = true := by decide
  have t4 : Nat.testBit 95 4 = true := by decide
  have t5 : Nat.testBit 95 5 = false := by decide
  have t6 : Nat.testBit 95 6 = true := by decide
  have t7 : Nat.testBit 95 7 = false := by decide
  refine ⟨rfl, rfl, ?_, ?_, ?_, ?_, ?_, ?_, ?_, ?_, rfl, rfl, rfl, rfl, rfl, rfl, rfl⟩ <;>
    simp [vrEmuTms9918aReadStatus, Nat.testBit_and, t0, t1, t2, t3, t4, t5, t6, t7]

/-- A sequence of write_data calls, first list element written first. -/
def vrEmuTms9918aWriteDataSeq (tms : VrEmuTms9918a) : List Nat → VrEmuTms9918a
  | [] => tms
  | b :: rest => vrEmuTms9918aWriteDataSeq (vrEmuTms9918aWriteData tms b) rest

/-- A sequence of read_data calls, returning the bytes in read order. -/
def vrEmuTms9918aReadDataSeq (tms : VrEmuTms9918a) : Nat → List Nat × VrEmuTms9918a
  | 0 => ([], tms)
  | n+1 =>
    let p := vrEmuTms9918aReadData tms
    let q := vrEmuTms9918aReadDataSeq p.2 n
    (p.1 :: q.1, q.2)

theorem writeAddr_vram (tms : VrEmuTms9918a) (d : Nat) :
    (vrEmuTms9918aWriteAddr tms d).vram = tms.vram := by
  simp only [vrEmuTms9918aWriteAddr]
  split
  · split <;> rfl
  · rfl

theorem writeDataSeq_lastMode : (l : List Nat) → (s : VrEmuTms9918a) →
    (vrEmuTms9918aWriteDataSeq s l).lastMode = s.lastMode
  | [], _ => rfl
  | _ :: rest, s => writeDataSeq_lastMode rest _

theorem writeDataSeq_vram_frame : (l : List Nat) → (s : VrEmuTms9918a) → (a : Nat) →
    (∀ k, k < l.length → (s.currentAddress + k) % 16384 ≠ a) →
    (vrEmuTms9918aWriteDataSeq s l).vram a = s.vram a
  | [], _, _, _ => rfl
  | b :: rest, s, a, h => by
    have hrest : (vrEmuTms9918aWriteDataSeq (vrEmuTms9918aWriteData s b) rest).vram a =
        (vrEmuTms9918aWriteData s b).vram a := by
      refine writeDataSeq_vram_frame rest _ a ?_
      intro k hk
      have hk1 := h (k + 1) (by simpa using Nat.succ_lt_succ hk)
      show ((s.currentAddress + 1) % 65536 + k) % 16384 ≠ a
      omega
    have hone : (vrEmuTms9918aWriteData s b).vram a = s.vram a := by
      have h0 := h 0 (by simp)
      rw [Nat.add_zero] at h0
      show Function.update s.vram (s.currentAddress % 16384) (b % 256) a = s.vram a
      exact Function.update_noteq (Ne.symm h0) _ _
    show (vrEmuTms9918aWriteDataSeq (vrEmuTms9918aWriteData s b) rest).vram a = s.vram a
    rw [hrest, hone]

theorem writeDataSeq_vram_get : (l : List Nat) → (s : VrEmuTms9918a) → (k : Nat) →
    (hk : k < l.length) → l.length ≤ 16384 →
    (vrEmuTms9918aWriteDataSeq s l).vram ((s.currentAddress + k) % 16384) =
      l.get ⟨k, hk⟩ % 256
  | b :: rest, s, 0, _, hlen => by
    show (vrEmuTms9918aWriteDataSeq (vrEmuTms9918aWriteData s b) rest).vram
        ((s.currentAddress + 0) % 16384) = b % 256
    rw [Nat.add_zero]
    have hframe : (vrEmuTms9918aWriteDataSeq (vrEmuTms9918aWriteData s b) rest).vram
        (s.currentAddress % 16384) = (vrEmuTms9918aWriteData s b).vram
        (s.currentAddress % 16384) := by
      refine writeDataSeq_vram_frame rest _ _ ?_
      intro k hk
      have hlen2 : rest.length ≤ 16383 := by
        simp [List.length_cons] at hlen
        omega
      show ((s.currentAddress + 1) % 65536 + k) % 16384 ≠ s.currentAddress % 16384
      omega
    rw [hframe]
    simp [vrEmuTms9918aWriteData, Function.update_same]
  | b :: rest, s, k+1, hk, hlen => by
    have ih := writeDataSeq_vram_get rest (vrEmuTms9918aWriteData s b) k
      (by simpa using Nat.lt_of_succ_lt_succ hk) (by simp at hlen; omega)
    have haddr : ((s.currentAddress + (k + 1)) % 16384) =
        (((s.currentAddress + 1) % 65536 + k) % 16384) := by omega
    show (vrEmuTms9918aWriteDataSeq (vrEmuTms9918aWriteData s b) rest).vram
        ((s.currentAddress + (k + 1)) % 16384) = rest.get ⟨k, _⟩ % 256
    rw [haddr]
    exact ih

theorem readDataSeq_spec : (n : Nat) → (s : VrEmuTms9918a) →
    (vrEmuTms9918aReadDataSeq s n).1 =
      (List.range n).map (fun k => s.vram ((s.currentAddress + k) % 16384))
  | 0, _ => rfl
  | n+1, s => by
    have ih := readDataSeq_spec n { s with currentAddress := (s.currentAddress + 1) % 65536 }
    show s.vram (s.currentAddress % 16384) ::
        (vrEmuTms9918aReadDataSeq { s with currentAddress := (s.currentAddress + 1) % 65536 } n).1 =
      (List.range (n+1)).map (fun k => s.vram ((s.currentAddress + k) % 16384))
    rw [List.range_succ_eq_map, List.map_cons, ih, List.map_map]
    refine congrArg₂ _ (by rw [Nat.add_zero]) ?_
    refine List.map_congr_left ?_
    intro a _
    show s.vram (((s.currentAddress + 1) % 65536 + a) % 16384) =
      s.vram ((s.currentAddress + (a + 1)) % 16384)
    have heq : (((s.currentAddress + 1) % 65536 + a) % 16384) =
        ((s.currentAddress + (a + 1)) % 16384) := by omega
    rw [heq]

/-- claim C4: for every sequence of at most 16384 bytes written via
successive write_data calls starting from current address A, after
restoring the current address to A (with the two-byte write_address
sequence), successive read_data calls return exactly the same sequence
of bytes, with addresses taken modulo 16384 on both passes. -/
theorem claim_C4_write_read_roundtrip (s : VrEmuTms9918a) (l : List Nat) (A : Nat)
    (hphase : s.lastMode = 0) (haddr : s.currentAddress = A) (hA : A < 16384)
    (hlen : l.length ≤ 16384) (hbytes : ∀ b ∈ l, b < 256) :
    (vrEmuTms9918aReadDataSeq
      (vrEmuTms9918aWriteAddr
        (vrEmuTms9918aWriteAddr (vrEmuTms9918aWriteDataSeq s l) (A % 256)) (A / 256))
      l.length).1 = l := by
  have h1mode : (vrEmuTms9918aWriteDataSeq s l).lastMode = 0 :=
    (writeDataSeq_lastMode l s).trans hphase
  have hmm : A % 256 % 256 = A % 256 := by omega
  have hw1 : vrEmuTms9918aWriteAddr (vrEmuTms9918aWriteDataSeq s l) (A % 256) =
      { vrEmuTms9918aWriteDataSeq s l with currentAddress := A % 256, lastMode := 1 } := by
    simp [vrEmuTms9918aWriteAddr, h1mode, hmm]
  have hd : A / 256 % 256 = A / 256 := by omega
  have hd64 : A / 256 % 64 = A / 256 := by omega
  have hbit : (A / 256).testBit 7 = false :=
    Nat.testBit_lt_two_pow (by omega)
  have hor : A % 256 ||| (A / 256) <<< 8 = A := by
    have h := mul_two_pow_or_eq_add 8 (A % 256) (A / 256) (by omega)
    rw [Nat.lor_comm, Nat.shiftLeft_eq, h]
    omega
  have hw2 : vrEmuTms9918aWriteAddr
      (vrEmuTms9918aWriteAddr (vrEmuTms9918aWriteDataSeq s l) (A % 256)) (A / 256) =
      { vrEmuTms9918aWriteDataSeq s l with currentAddress := A, lastMode := 0 } := by
    rw [hw1]
    simp only [vrEmuTms9918aWriteAddr, hd, hd64, hbit]
    simp [hor, Nat.mod_eq_of_lt (by omega : A < 65536)]
  rw [hw2, readDataSeq_spec]
  refine List.ext_get (by simp) ?_
  intro n h1 h2
  rw [List.get_map, List.get_range]
  show (vrEmuTms9918aWriteDataSeq s l).vram ((A + n) % 16384) = l.get ⟨n, h2⟩
  rw [← haddr]
  rw [writeDataSeq_vram_get l s n h2 hlen]
  exact Nat.mod_eq_of_lt (hbytes _ (List.get_mem l n h2))

/-- Witness for claim C4 at the spec's concrete scenario: write 0x10 then
0x20 at address 0, restore the address, read back [0x10, 0x20]. -/
theorem claim_C4_write_read_roundtrip_witness :
    initState.lastMode = 0 ∧ initState.currentAddress = 0 ∧ (0:Nat) < 16384 ∧
    ([16, 32] : List Nat).length ≤ 16384 ∧ (∀ b ∈ ([16, 32] : List Nat), b < 256) ∧
    (vrEmuTms9918aReadDataSeq
      (vrEmuTms9918aWriteAddr
        (vrEmuTms9918aWriteAddr (vrEmuTms9918aWriteDataSeq initState [16, 32]) (0 % 256))
        (0 / 256))
      ([16, 32] : List Nat).length).1 = [16, 32] := by
  refine ⟨rfl, rfl, by omega, by simp, by decide, ?_⟩
  exact claim_C4_write_read_roundtrip initState [16, 32] 0 rfl rfl (by omega)
    (by simp) (by decide)

/-- The sprite-pass scratch state: the evolving status byte, the
per-scanline occupancy bitmap and the caller's pixel buffer. -/
structure SpriteState where
  status : Nat
  rowSpriteBits : Nat → Nat
  pixels : Pixels

/-- Address of sprite slot i's 4-byte attribute record. -/
def spriteAttrAddrD (tms : VrEmuTms9918a) (i : Nat) : Nat :=
  tmsSpriteAttrTableAddr tms + i * 4

/-- Raw vertical position byte of sprite slot i (attribute byte 0). -/
def spriteVPosRaw (tms : VrEmuTms9918a) (i : Nat) : Nat :=
  tms.vram (spriteAttrAddrD tms i)

/-- The sprite pattern row for scanline y: the raw vPos is remapped to
signed when above (uint8_t)-32 = 224, incremented by one, subtracted
from y, and halved (C truncating division) when magnified. -/
def spritePatternRow (tms : VrEmuTms9918a) (y i : Nat) : Int :=
  let raw := spriteVPosRaw tms i
  let vPos : Int := (if 224 < raw then (raw : Int) - 256 else (raw : Int)) + 1
  let pr : Int := (y : Int) - vPos
  if tmsSpriteMag tms = 1 then Int.tdiv pr 2 else pr

/-- The row-range bound used by the visibility check: 16 for 16x16
sprites, 8 for 8x8 sprites. -/
def spriteRowLimit (tms : VrEmuTms9918a) : Int :=
  if tmsSpriteSize tms = 1 then 16 else 8

/-- Sprite slot i is visible on scanline y: its pattern row is neither
negative nor at or beyond the sprite row bound (the negation of the C
skip condition). -/
def spriteVisibleB (tms : VrEmuTms9918a) (y i : Nat) : Bool :=
  !(decide (spritePatternRow tms y i < 0) ||
    decide (spriteRowLimit tms ≤ spritePatternRow tms y i))

/-- Sprite slot i's color (attribute byte 3, low nibble). -/
def spriteColorD (tms : VrEmuTms9918a) (i : Nat) : Nat :=
  tms.vram (spriteAttrAddrD tms i + 3) % 16

/-- Sprite slot i's early-clock flag (attribute byte 3, bit 7). -/
def spriteEarlyClock (tms : VrEmuTms9918a) (i : Nat) : Bool :=
  (tms.vram (spriteAttrAddrD tms i + 3)).testBit 7

/-- Sprite slot i's pattern name (attribute byte 2). -/
def spritePatternName (tms : VrEmuTms9918a) (i : Nat) : Nat :=
  tms.vram (spriteAttrAddrD tms i + 2)

/-- The 16-bit patternOffset variable: pattern table base plus
patternName * 8 plus the pattern row. -/
def spritePatternOffsetD (tms : VrEmuTms9918a) (y i : Nat) : Nat :=
  (tmsSpritePatternTableAddr tms + spritePatternName tms i * 8 +
    (spritePatternRow tms y i).toNat) % 65536

/-- Sprite slot i's horizontal position (attribute byte 1), shifted left
by 32 when the early-clock flag is set. -/
def spriteHPosD (tms : VrEmuTms9918a) (i : Nat) : Int :=
  (tms.vram (spriteAttrAddrD tms i + 1) : Int) -
    (if spriteEarlyClock tms i then 32 else 0)

/-- spriteSizePx: on-screen sprite extent, (16 or 8) doubled under
magnification. -/
def spriteSizePx (tms : VrEmuTms9918a) : Nat :=
  (if tmsSpriteSize tms = 1 then 16 else 8) * (if tmsSpriteMag tms = 1 then 2 else 1)

/-- The pattern bit index consumed at a given screenBit of the sprite
walk: each pattern bit covers two screen columns under magnification. -/
def spritePatternIdx (mag : Bool) (screenBit : Nat) : Nat :=
  if mag then screenBit / 2 else screenBit

/-- The pattern byte the walk holds at a given screenBit: the byte at
patternOffset for the first eight pattern bits, then the byte sixteen
bytes later (the next 16x16 quadrant). -/
def spritePatternByteAt (vram : Nat → Nat) (patternOffset : Nat) (mag : Bool)
    (screenBit : Nat) : Nat :=
  if spritePatternIdx mag screenBit < 8 then vram patternOffset
  else vram (patternOffset + 16)

/-- Whether the sprite walk samples a set pattern bit at a given
screenBit. -/
def spritePatternBitSet (vram : Nat → Nat) (patternOffset : Nat) (mag : Bool)
    (screenBit : Nat) : Bool :=
  (spritePatternByteAt vram patternOffset mag screenBit).testBit
    (7 - spritePatternIdx mag screenBit % 8)

/-- Sprite slot i has a set pattern bit landing on screen column x. -/
def spriteCoversX (tms : VrEmuTms9918a) (y i x : Nat) : Bool :=
  (List.range (spriteSizePx tms)).any fun screenBit =>
    decide (spriteHPosD tms i + (screenBit : Int) = (x : Int)) &&
    spritePatternBitSet tms.vram (spritePatternOffsetD tms y i) (tmsSpriteMag tms = 1)
      screenBit

/-- Number of sprite slots below n that are visible on scanline y. -/
def countVisible (tms : VrEmuTms9918a) (y : Nat) : Nat → Nat
  | 0 => 0
  | n+1 => countVisible tms y n + (if spriteVisibleB tms y n then 1 else 0)

/-- The per-column update of the sprite walk: write the color into the
pixel buffer (unless transparent), set COL in the status when the
occupancy bit at this column was already set, and set the occupancy
bit. -/
def renderStep (spriteColor x : Nat) (st : SpriteState) : SpriteState :=
  let stPix := if spriteColor ≠ TMS_TRANSPARENT then
      { st with pixels := Function.update st.pixels x spriteColor }
    else st
  let stCol := if st.rowSpriteBits x ≠ 0 then
      { stPix with status := stPix.status ||| 0x20 }
    else stPix
  { stCol with rowSpriteBits := Function.update stCol.rowSpriteBits x 1 }

/-- The pattern-state advance at the end of one walk iteration: advance
the pattern bit on every step (or every odd step when magnified),
refilling the pattern byte from patternOffset + 16 when the bit index
wraps from 7 to 0. -/
def patternAdvance (vram : Nat → Nat) (patternOffset : Nat) (mag : Bool)
    (screenBit patternBit patternByte : Nat) : Nat × Nat :=
  if mag = false ∨ screenBit % 2 = 1 then
    if patternBit + 1 = 8 then (0, vram (patternOffset + 16))
    else (patternBit + 1, patternByte)
  else (patternBit, patternByte)

/-- The per-sprite pixel walk of vrEmuTms9918aOutputSprites: n remaining
screen columns, current screenBit, current patternBit and patternByte.
Stops when screenX reaches the right screen edge; applies renderStep at
on-screen columns whose pattern bit is set, then advances the pattern
state with patternAdvance. -/
def renderLoop (vram : Nat → Nat) (patternOffset : Nat) (mag : Bool)
    (spriteColor : Nat) (hPos : Int) :
    Nat → Nat → Nat → Nat → SpriteState → SpriteState
  | 0, _, _, _, st => st
  | n+1, screenBit, patternBit, patternByte, st =>
    let screenX : Int := hPos + (screenBit : Int)
    if (TMS9918A_PIXELS_X : Int) ≤ screenX then st
    else
      let st1 :=
        if 0 ≤ screenX ∧ patternByte.testBit (7 - patternBit) = true then
          renderStep spriteColor screenX.toNat st
        else st
      let adv := patternAdvance vram patternOffset mag screenBit patternBit patternByte
      renderLoop vram patternOffset mag spriteColor hPos n (screenBit + 1) adv.1 adv.2 st1

/-- The sprite-slot loop of vrEmuTms9918aOutputSprites, with fuel
32 - i: stop at a terminator slot (recording its index when 5S is
clear), skip invisible slots, clear the occupancy bitmap at the first
visible slot, stop with 5S and the slot index at the fifth visible
slot (when 5S is clear), and otherwise render the sprite. -/
def spriteLoop (tms : VrEmuTms9918a) (y : Nat) :
    Nat → Nat → Nat → SpriteState → SpriteState
  | 0, _, _, st => st
  | fuel+1, i, spritesShown, st =>
    if spriteVPosRaw tms i = 0xD0 then
      if st.status.testBit 6 = true then st
      else { st with status := st.status ||| i }
    else if spriteVisibleB tms y i = false then
      spriteLoop tms y fuel (i+1) spritesShown st
    else
      let st1 := if spritesShown = 0 then
          { st with rowSpriteBits := fun x => if x < 256 then 0 else st.rowSpriteBits x }
        else st
      if 4 < spritesShown + 1 then
        if st1.status.testBit 6 = true then st1
        else { st1 with status := st1.status ||| (0x40 ||| i) }
      else
        spriteLoop tms y fuel (i+1) (spritesShown + 1)
          (renderLoop tms.vram (spritePatternOffsetD tms y i) (tmsSpriteMag tms = 1)
            (spriteColorD tms i) (spriteHPosD tms i) (spriteSizePx tms) 0 0
            (tms.vram (spritePatternOffsetD tms y i)) st1)

/-- vrEmuTms9918aOutputSprites: clear the status byte on scanline 0,
then run the 32-slot sprite loop over the pixel buffer. -/
def vrEmuTms9918aOutputSprites (tms : VrEmuTms9918a) (y : Nat) (pixels : Pixels) :
    VrEmuTms9918a × Pixels :=
  let status0 := if y = 0 then 0 else tms.status
  let st := spriteLoop tms y 32 0 0
    { status := status0, rowSpriteBits := tms.rowSpriteBits, pixels := pixels }
  ({ tms with status := st.status, rowSpriteBits := st.rowSpriteBits }, st.pixels)

/-- vrEmuTms9918aGraphicsIScanLine: 32 tiles of 8 pixels from the name,
pattern and per-8-pattern color tables, then the sprite pass. -/
def vrEmuTms9918aGraphicsIScanLine (tms : VrEmuTms9918a) (y : Nat) (pixels : Pixels) :
    VrEmuTms9918a × Pixels :=
  let textRow := y / 8
  let patternRow := y % 8
  let namesAddr := tmsNameTableAddr tms + textRow * 32
  let patternBaseAddr := tmsPatternTableAddr tms
  let colorBaseAddr := tmsColorTableAddr tms
  let px := (List.range 32).foldl (fun buf tileX =>
    let pattern := tms.vram (namesAddr + tileX)
    let patternByte := tms.vram (patternBaseAddr + pattern * 8 + patternRow)
    let colorByte := tms.vram (colorBaseAddr + pattern / 8)
    let fgColor := tmsFgColor tms colorByte
    let bgColor := tmsBgColor tms colorByte
    (List.range 8).foldl (fun buf2 i =>
      Function.update buf2 (tileX * 8 + i)
        (if patternByte.testBit (7 - i) then fgColor else bgColor)) buf) pixels
  vrEmuTms9918aOutputSprites tms y px

/-- vrEmuTms9918aGraphicsIIScanLine: like Graphics I but with the
three-page bank offset and a per-pattern-row color table, then the
sprite pass. -/
def vrEmuTms9918aGraphicsIIScanLine (tms : VrEmuTms9918a) (y : Nat) (pixels : Pixels) :
    VrEmuTms9918a × Pixels :=
  let textRow := y / 8
  let patternRow := y % 8
  let namesAddr := tmsNameTableAddr tms + textRow * 32
  let pageThird := textRow / 8 % 4
  let pageOffset := pageThird * 2048
  let patternBaseAddr := tmsPatternTableAddr tms + pageOffset
  let colorBaseAddr := tmsColorTableAddr tms + pageOffset
  let px := (List.range 32).foldl (fun buf tileX =>
    let pattern := tms.vram (namesAddr + tileX)
    let patternByte := tms.vram (patternBaseAddr + pattern * 8 + patternRow)
    let colorByte := tms.vram (colorBaseAddr + pattern * 8 + patternRow)
    let fgColor := tmsFgColor tms colorByte
    let bgColor := tmsBgColor tms colorByte
    (List.range 8).foldl (fun buf2 i =>
      Function.update buf2 (tileX * 8 + i)
        (if patternByte.testBit (7 - i) then fgColor else bgColor)) buf) pixels
  vrEmuTms9918aOutputSprites tms y px

/-- vrEmuTms9918aTextScanLine: 8-pixel left margin, 40 tiles of 6
pixels with the global foreground/background colors, 8-pixel right
margin; no sprite pass and no status change. (The C code also reads a
color-table byte per tile but never uses it.) -/
def vrEmuTms9918aTextScanLine (tms : VrEmuTms9918a) (y : Nat) (pixels : Pixels) :
    VrEmuTms9918a × Pixels :=
  let textRow := y / 8
  let patternRow := y % 8
  let namesAddr := tmsNameTableAddr tms + textRow * 40
  let bgColor := tmsMainBgColor tms
  let fgColor := tmsMainFgColor tms
  let px0 := (List.range 8).foldl (fun buf i => Function.update buf i bgColor) pixels
  let px1 := (List.range 40).foldl (fun buf tileX =>
    let pattern := tms.vram (namesAddr + tileX)
    let patternByte := tms.vram (tmsPatternTableAddr tms + pattern * 8 + patternRow)
    (List.range 6).foldl (fun buf2 i =>
      Function.update buf2 (8 + tileX * 6 + i)
        (if patternByte.testBit (7 - i) then fgColor else bgColor)) buf) px0
  let px2 := (List.range 8).foldl (fun buf i => Function.update buf (248 + i) bgColor) px1
  (tms, px2)

/-- vrEmuTms9918aMulticolorScanLine: 32 tiles of four foreground then
four background pixels from the packed color bytes, then the sprite
pass. -/
def vrEmuTms9918aMulticolorScanLine (tms : VrEmuTms9918a) (y : Nat) (pixels : Pixels) :
    VrEmuTms9918a × Pixels :=
  let textRow := y / 8
  let patternRow := y / 4 % 2 + textRow % 4 * 2
  let namesAddr := tmsNameTableAddr tms + textRow * 32
  let px := (List.range 32).foldl (fun buf tileX =>
    let pattern := tms.vram (namesAddr + tileX)
    let colorByte := tms.vram (tmsPatternTableAddr tms + pattern * 8 + patternRow)
    let buf1 := (List.range 4).foldl (fun buf2 i =>
      Function.update buf2 (tileX * 8 + i) (tmsFgColor tms colorByte)) buf
    (List.range 4).foldl (fun buf2 i =>
      Function.update buf2 (tileX * 8 + 4 + i) (tmsBgColor tms colorByte)) buf1) pixels
  vrEmuTms9918aOutputSprites tms y px

/-- vrEmuTms9918aScanLine on a non-NULL instance: blank the buffer with
the main background color when the display is disabled or y is past the
visible raster, otherwise dispatch on the cached mode and set INT after
the last visible scanline. -/
def vrEmuTms9918aScanLine (tms : VrEmuTms9918a) (y : Nat) (pixels : Pixels) :
    VrEmuTms9918a × Pixels :=
  let y := y % 256
  if vrEmuTms9918aDisplayEnabled tms = false ∨ TMS9918A_PIXELS_Y ≤ y then
    (tms, fun x => if x < TMS9918A_PIXELS_X then tmsMainBgColor tms else pixels x)
  else
    let p :=
      match tms.mode with
      | TmsMode.graphicsI => vrEmuTms9918aGraphicsIScanLine tms y pixels
      | TmsMode.graphicsII => vrEmuTms9918aGraphicsIIScanLine tms y pixels
      | TmsMode.text => vrEmuTms9918aTextScanLine tms y pixels
      | TmsMode.multicolor => vrEmuTms9918aMulticolorScanLine tms y pixels
    if y = TMS9918A_PIXELS_Y - 1 then
      ({ p.1 with status := p.1.status ||| 0x80 }, p.2)
    else p

/-- vrEmuTms9918aRegValue: 0 for a NULL handle, otherwise the register
masked to 3 index bits. -/
def vrEmuTms9918aRegValueAPI : Option VrEmuTms9918a → Nat →
    Except Unit (Nat × Option VrEmuTms9918a)
  | none, _ => Except.ok (0, none)
  | some tms, reg => Except.ok (tms.registers (reg % 8), some tms)

/-- vrEmuTms9918aVramValue: 0 for a NULL handle, otherwise the VRAM byte
at the masked address. -/
def vrEmuTms9918aVramValueAPI : Option VrEmuTms9918a → Nat →
    Except Unit (Nat × Option VrEmuTms9918a)
  | none, _ => Except.ok (0, none)
  | some tms, addr => Except.ok (tms.vram (addr % 16384), some tms)

/-- vrEmuTms9918aDisplayEnabled at the API: 0 for a NULL handle. -/
def vrEmuTms9918aDisplayEnabledAPI : Option VrEmuTms9918a →
    Except Unit (Nat × Option VrEmuTms9918a)
  | none => Except.ok (0, none)
  | some tms => Except.ok (if vrEmuTms9918aDisplayEnabled tms then 1 else 0, some tms)

/-- vrEmuTms9918aReset at the API: checks for NULL and is a no-op
there. -/
def vrEmuTms9918aResetAPI : Option VrEmuTms9918a → Except Unit (Option VrEmuTms9918a)
  | none => Except.ok none
  | some tms => Except.ok (some (vrEmuTms9918aReset tms))

/-- vrEmuTms9918aDestroy at the API: checks for NULL; frees the instance
otherwise. -/
def vrEmuTms9918aDestroyAPI : Option VrEmuTms9918a → Except Unit (Option VrEmuTms9918a)
  | none => Except.ok none
  | some _ => Except.ok none

/-- vrEmuTms9918aScanLine at the API: checks for NULL and leaves the
pixel buffer untouched there. -/
def vrEmuTms9918aScanLineAPI : Option VrEmuTms9918a → Nat → Pixels →
    Except Unit (Option VrEmuTms9918a × Pixels)
  | none, _, pixels => Except.ok (none, pixels)
  | some tms, y, pixels =>
    Except.ok (some (vrEmuTms9918aScanLine tms y pixels).1,
      (vrEmuTms9918aScanLine tms y pixels).2)

/-- vrEmuTms9918aWriteAddr at the API: no NULL check in the C code, so a
NULL handle faults. -/
def vrEmuTms9918aWriteAddrAPI : Option VrEmuTms9918a → Nat →
    Except Unit (Option VrEmuTms9918a)
  | none, _ => Except.error ()
  | some tms, d => Except.ok (some (vrEmuTms9918aWriteAddr tms d))

/-- vrEmuTms9918aWriteData at the API: no NULL check in the C code, so a
NULL handle faults. -/
def vrEmuTms9918aWriteDataAPI : Option VrEmuTms9918a → Nat →
    Except Unit (Option VrEmuTms9918a)
  | none, _ => Except.error ()
  | some tms, d => Except.ok (some (vrEmuTms9918aWriteData tms d))

/-- vrEmuTms9918aReadStatus at the API: no NULL check in the C code, so
a NULL handle faults. -/
def vrEmuTms9918aReadStatusAPI : Option VrEmuTms9918a →
    Except Unit (Nat × Option VrEmuTms9918a)
  | none => Except.error ()
  | some tms => Except.ok ((vrEmuTms9918aReadStatus tms).1,
      some (vrEmuTms9918aReadStatus tms).2)

/-- vrEmuTms9918aReadData at the API: no NULL check in the C code, so a
NULL handle faults. -/
def vrEmuTms9918aReadDataAPI : Option VrEmuTms9918a →
    Except Unit (Nat × Option VrEmuTms9918a)
  | none => Except.error ()
  | some tms => Except.ok ((vrEmuTms9918aReadData tms).1,
      some (vrEmuTms9918aReadData tms).2)

/-- vrEmuTms9918aReadDataNoInc at the API: no NULL check in the C code,
so a NULL handle faults. -/
def vrEmuTms9918aReadDataNoIncAPI : Option VrEmuTms9918a →
    Except Unit (Nat × Option VrEmuTms9918a)
  | none => Except.error ()
  | some tms => Except.ok (vrEmuTms9918aReadDataNoInc tms, some tms)

/-- Counterexample to claim C8 as stated: with the display disabled (the
post-reset register file), rendering a scanline fills the buffer with
color index 1 (TMS_BLACK), not color index 0. -/
theorem claim_C8_counterexample :
    vrEmuTms9918aDisplayEnabled initState = false ∧
    ¬((vrEmuTms9918aScanLine initState 5 (fun _ => 0)).2 0 = 0) ∧
    (vrEmuTms9918aScanLine initState 5 (fun _ => 0)).2 0 = TMS_BLACK := by
  decide

/-- claim C8 (amended): for every scanline y, calling scanline(y) while
the display is disabled (R1 bit 6 = 0) fills the output buffer with 256
identical bytes equal to color index 1 (TMS_BLACK). -/
theorem claim_C8_disabled_scanline_black (s : VrEmuTms9918a) (y : Nat) (p : Pixels)
    (hdis : vrEmuTms9918aDisplayEnabled s = false) (x : Nat) (hx : x < 256) :
    (vrEmuTms9918aScanLine s y p).2 x = TMS_BLACK := by
  simp only [vrEmuTms9918aScanLine]
  rw [if_pos (Or.inl hdis)]
  simp [tmsMainBgColor, hdis, TMS_BLACK, TMS9918A_PIXELS_X, hx]

/-- Witness for the amended claim C8 at a concrete disabled state. -/
theorem claim_C8_disabled_scanline_black_witness :
    vrEmuTms9918aDisplayEnabled initState = false ∧ (255:Nat) < 256 ∧
    (vrEmuTms9918aScanLine initState 0 (fun _ => 7)).2 255 = TMS_BLACK :=
  ⟨by decide, by omega,
   claim_C8_disabled_scanline_black initState 0 (fun _ => 7) (by decide) 255 (by omega)⟩

theorem scanLine_currentAddress (s : VrEmuTms9918a) (y : Nat) (p : Pixels) :
    (vrEmuTms9918aScanLine s y p).1.currentAddress = s.currentAddress := by
  unfold vrEmuTms9918aScanLine
  by_cases hb : vrEmuTms9918aDisplayEnabled s = false ∨ TMS9918A_PIXELS_Y ≤ y % 256
  · rw [if_pos hb]
  · rw [if_neg hb]
    cases hm : s.mode <;> simp only [hm] <;> split <;> rfl

/-- Counterexample to claim C9 as stated: setting the address to 0x3FFF
and writing one data byte leaves 0x4000 in the address field, exceeding
0x3FFF. -/
theorem claim_C9_counterexample :
    (vrEmuTms9918aWriteData
      (vrEmuTms9918aWriteAddr (vrEmuTms9918aWriteAddr initState 0xFF) 0x3F) 0).currentAddress
      = 0x4000 ∧
    ¬((vrEmuTms9918aWriteData
      (vrEmuTms9918aWriteAddr (vrEmuTms9918aWriteAddr initState 0xFF) 0x3F) 0).currentAddress
      ≤ 0x3FFF) := by
  decide

/-- claim C9 (amended): the address field is a 16-bit quantity: after
every operation it stays below 65536, and the effective VRAM address it
induces (the field modulo 16384, the mask applied at every use) is
always within 0..16383; the field itself can exceed 0x3FFF after a
data-port post-increment. -/
theorem claim_C9_address_field_bounded (s : VrEmuTms9918a) (d y : Nat) (p : Pixels)
    (hs : s.currentAddress < 65536) :
    (vrEmuTms9918aWriteAddr s d).currentAddress < 65536 ∧
    (vrEmuTms9918aWriteData s d).currentAddress < 65536 ∧
    (vrEmuTms9918aReadData s).2.currentAddress < 65536 ∧
    (vrEmuTms9918aReadStatus s).2.currentAddress < 65536 ∧
    (vrEmuTms9918aScanLine s y p).1.currentAddress < 65536 ∧
    (vrEmuTms9918aReset s).currentAddress < 65536 ∧
    (vrEmuTms9918aWriteData s d).currentAddress % 16384 < 16384 ∧
    (vrEmuTms9918aReadData s).2.currentAddress % 16384 < 16384 := by
  refine ⟨?_, ?_, ?_, hs, ?_, ?_, ?_, ?_⟩
  · simp only [vrEmuTms9918aWriteAddr]
    split
    · split
      · exact hs
      · show (s.currentAddress ||| (d % 256 % 64) <<< 8) % 65536 < 65536
        omega
    · show d % 256 < 65536
      omega
  · show (s.currentAddress + 1) % 65536 < 65536
    omega
  · show (s.currentAddress + 1) % 65536 < 65536
    omega
  · rw [scanLine_currentAddress]
    exact hs
  · show (0:Nat) < 65536
    omega
  · show (s.currentAddress + 1) % 65536 % 16384 < 16384
    omega
  · show (s.currentAddress + 1) % 65536 % 16384 < 16384
    omega

/-- Witness for the amended claim C9 at the post-reset state. -/
theorem claim_C9_address_field_bounded_witness :
    initState.currentAddress < 65536 ∧
    (vrEmuTms9918aWriteData initState 0).currentAddress < 65536 := by
  refine ⟨by decide, ?_⟩
  exact (claim_C9_address_field_bounded initState 0 0 (fun _ => 0) (by decide)).2.1

/-- Counterexample to claim C10 as stated: write_data and read_status on
a NULL handle dereference it (modelled as a fault), instead of being
no-ops returning a zeroed value. -/
theorem claim_C10_counterexample :
    vrEmuTms9918aWriteDataAPI none 0 = Except.error () ∧
    vrEmuTms9918aReadStatusAPI none = Except.error () :=
  ⟨rfl, rfl⟩

/-- claim C10 (amended): scanline, reset, destroy, reg-value, vram-value
and display-enabled check the handle for NULL and are no-ops returning a
zeroed value there; write_address, write_data, read_status, read_data
and read_data_no_inc perform no NULL check and dereference the NULL
handle. -/
theorem claim_C10_null_handle_behavior :
    (∀ y p, vrEmuTms9918aScanLineAPI none y p = Except.ok (none, p)) ∧
    vrEmuTms9918aResetAPI none = Except.ok none ∧
    vrEmuTms9918aDestroyAPI none = Except.ok none ∧
    (∀ r, vrEmuTms9918aRegValueAPI none r = Except.ok (0, none)) ∧
    (∀ a, vrEmuTms9918aVramValueAPI none a = Except.ok (0, none)) ∧
    vrEmuTms9918aDisplayEnabledAPI none = Except.ok (0, none) ∧
    (∀ d, vrEmuTms9918aWriteAddrAPI none d = Except.error ()) ∧
    (∀ d, vrEmuTms9918aWriteDataAPI none d = Except.error ()) ∧
    vrEmuTms9918aReadStatusAPI none = Except.error () ∧
    vrEmuTms9918aReadDataAPI none = Except.error () ∧
    vrEmuTms9918aReadDataNoIncAPI none = Except.error () :=
  ⟨fun _ _ => rfl, rfl, rfl, fun _ => rfl, fun _ => rfl, rfl,
   fun _ => rfl, fun _ => rfl, rfl, rfl, rfl⟩

theorem spriteLoop_congr (t1 t2 : VrEmuTms9918a) (y : Nat) (hv : t1.vram = t2.vram)
    (hr : t1.registers = t2.registers) :
    ∀ fuel i ss st, spriteLoop t1 y fuel i ss st = spriteLoop t2 y fuel i ss st := by
  intro fuel
  induction fuel with
  | zero => intro i ss st; rfl
  | succ n ih =>
    intro i ss st
    simp only [spriteLoop, spriteVPosRaw, spriteAttrAddrD, tmsSpriteAttrTableAddr,
      spriteVisibleB, spritePatternRow, tmsSpriteMag, spriteRowLimit, tmsSpriteSize,
      spriteColorD, spriteHPosD, spriteEarlyClock, spritePatternOffsetD,
      spritePatternName, tmsSpritePatternTableAddr, spriteSizePx, hv, hr, ih]

/-- A concrete state in Text mode with the display enabled and a
nonzero status byte. -/
def textModeState : VrEmuTms9918a :=
  { vram := fun _ => 0
    registers := fun r => if r = 1 then 0x40 else 0
    status := 0x80
    lastMode := 0
    currentAddress := 0
    mode := TmsMode.text
    rowSpriteBits := fun _ => 0 }

/-- Counterexample to claim C7 as stated: in Text mode (display enabled)
rendering scanline 0 performs no sprite evaluation and leaves the status
byte untouched, so the status is not cleared to zero. -/
theorem claim_C7_counterexample :
    vrEmuTms9918aDisplayEnabled textModeState = true ∧
    (vrEmuTms9918aScanLine textModeState 0 (fun _ => 0)).1.status = 0x80 ∧
    ¬((vrEmuTms9918aScanLine textModeState 0 (fun _ => 0)).1.status = 0) := by
  decide

/-- claim C7 (amended): when the cached mode has a sprite pass
(Graphics I, Graphics II, Multicolor) and the display is enabled,
rendering scanline 0 clears the status byte before sprite evaluation,
so the result does not depend on the prior status; in Text mode or with
the display disabled, rendering scanline 0 leaves the status byte
unchanged. -/
theorem claim_C7_scanline0_status (s : VrEmuTms9918a) (p : Pixels) :
    (vrEmuTms9918aDisplayEnabled s = true → s.mode ≠ TmsMode.text →
      vrEmuTms9918aScanLine s 0 p = vrEmuTms9918aScanLine { s with status := 0 } 0 p) ∧
    (vrEmuTms9918aDisplayEnabled s = true → s.mode = TmsMode.text →
      (vrEmuTms9918aScanLine s 0 p).1.status = s.status) ∧
    (vrEmuTms9918aDisplayEnabled s = false →
      (vrEmuTms9918aScanLine s 0 p).1.status = s.status) := by
  refine ⟨?_, ?_, ?_⟩
  · intro hen hmode
    unfold vrEmuTms9918aScanLine
    have hcond : ¬(vrEmuTms9918aDisplayEnabled s = false ∨ TMS9918A_PIXELS_Y ≤ 0 % 256) := by
      simp [hen, TMS9918A_PIXELS_Y]
    have hcond2 : ¬(vrEmuTms9918aDisplayEnabled { s with status := 0 } = false ∨
        TMS9918A_PIXELS_Y ≤ 0 % 256) := hcond
    rw [if_neg hcond, if_neg hcond2]
    cases hm : s.mode
    · have hsl : ∀ fuel i ss st,
          spriteLoop { s with status := 0, mode := TmsMode.graphicsI } 0 fuel i ss st =
            spriteLoop s 0 fuel i ss st :=
        spriteLoop_congr _ _ 0 rfl rfl
      simp [hm, vrEmuTms9918aGraphicsIScanLine, vrEmuTms9918aOutputSprites,
        tmsNameTableAddr, tmsPatternTableAddr, tmsColorTableAddr, tmsFgColor, tmsBgColor,
        tmsMainBgColor, tmsMainFgColor, vrEmuTms9918aDisplayEnabled, TMS9918A_PIXELS_Y,
        hsl]
    · have hsl : ∀ fuel i ss st,
          spriteLoop { s with status := 0, mode := TmsMode.graphicsII } 0 fuel i ss st =
            spriteLoop s 0 fuel i ss st :=
        spriteLoop_congr _ _ 0 rfl rfl
      simp [hm, vrEmuTms9918aGraphicsIIScanLine, vrEmuTms9918aOutputSprites,
        tmsNameTableAddr, tmsPatternTableAddr, tmsColorTableAddr, tmsFgColor, tmsBgColor,
        tmsMainBgColor, tmsMainFgColor, vrEmuTms9918aDisplayEnabled, TMS9918A_PIXELS_Y,
        hsl]
    · have hsl : ∀ fuel i ss st,
          spriteLoop { s with status := 0, mode := TmsMode.multicolor } 0 fuel i ss st =
            spriteLoop s 0 fuel i ss st :=
        spriteLoop_congr _ _ 0 rfl rfl
      simp [hm, vrEmuTms9918aMulticolorScanLine, vrEmuTms9918aOutputSprites,
        tmsNameTableAddr, tmsPatternTableAddr, tmsColorTableAddr, tmsFgColor, tmsBgColor,
        tmsMainBgColor, tmsMainFgColor, vrEmuTms9918aDisplayEnabled, TMS9918A_PIXELS_Y,
        hsl]
    · exact absurd hm hmode
  · intro hen hmode
    unfold vrEmuTms9918aScanLine
    have hcond : ¬(vrEmuTms9918aDisplayEnabled s = false ∨ TMS9918A_PIXELS_Y ≤ 0 % 256) := by
      simp [hen, TMS9918A_PIXELS_Y]
    rw [if_neg hcond]
    simp [hmode, vrEmuTms9918aTextScanLine, TMS9918A_PIXELS_Y]
  · intro hdis
    unfold vrEmuTms9918aScanLine
    rw [if_pos (Or.inl hdis)]

/-- A concrete Graphics I state with the display enabled and a nonzero
status byte. -/
def gfxModeState : VrEmuTms9918a :=
  { vram := fun _ => 0xD0
    registers := fun r => if r = 1 then 0x40 else 0
    status := 0xFF
    lastMode := 0
    currentAddress := 0
    mode := TmsMode.graphicsI
    rowSpriteBits := fun _ => 0 }

/-- Witness for the amended claim C7 at a concrete Graphics I state. -/
theorem claim_C7_scanline0_status_witness :
    vrEmuTms9918aDisplayEnabled gfxModeState = true ∧
    gfxModeState.mode ≠ TmsMode.text ∧
    vrEmuTms9918aScanLine gfxModeState 0 (fun _ => 0) =
      vrEmuTms9918aScanLine { gfxModeState with status := 0 } 0 (fun _ => 0) :=
  ⟨by decide, by decide,
   (claim_C7_scanline0_status gfxModeState (fun _ => 0)).1 (by decide) (by decide)⟩

theorem testBit_32_of_ne (b : Nat) (hb : b ≠ 5) : Nat.testBit 32 b = false := by
  rcases Nat.lt_or_ge b 6 with h | h
  · interval_cases b
    · decide
    · decide
    · decide
    · decide
    · decide
    · exact absurd rfl hb
  · refine Nat.testBit_lt_two_pow ?_
    have h2 : (2:Nat) ^ 6 ≤ 2 ^ b := Nat.pow_le_pow_right (by omega) h
    omega

theorem testBit_64_of_lt (b : Nat) (hb : b < 6) : Nat.testBit 64 b = false := by
  interval_cases b <;> decide

theorem renderStep_status_or (c x : Nat) (st : SpriteState) :
    (renderStep c x st).status = st.status ∨
    (renderStep c x st).status = st.status ||| 32 := by
  unfold renderStep
  by_cases hpix : c ≠ TMS_TRANSPARENT <;> by_cases hcol : st.rowSpriteBits x ≠ 0 <;>
    simp [hpix, hcol]

theorem renderStep_status_of_hit (c x : Nat) (st : SpriteState)
    (hcol : st.rowSpriteBits x ≠ 0) :
    (renderStep c x st).status = st.status ||| 32 := by
  unfold renderStep
  by_cases hpix : c ≠ TMS_TRANSPARENT <;> simp [hpix, hcol]

theorem renderStep_rowbits_self (c x : Nat) (st : SpriteState) :
    (renderStep c x st).rowSpriteBits x = 1 := by
  unfold renderStep
  by_cases hpix : c ≠ TMS_TRANSPARENT <;> by_cases hcol : st.rowSpriteBits x ≠ 0 <;>
    simp [hpix, hcol]

theorem renderStep_rowbits_other (c x x2 : Nat) (st : SpriteState) (hne : x2 ≠ x) :
    (renderStep c x st).rowSpriteBits x2 = st.rowSpriteBits x2 := by
  unfold renderStep
  by_cases hpix : c ≠ TMS_TRANSPARENT <;> by_cases hcol : st.rowSpriteBits x ≠ 0 <;>
    simp [hpix, hcol, Function.update_noteq hne]

theorem renderStep_pixels_transparent (x : Nat) (st : SpriteState) :
    (renderStep TMS_TRANSPARENT x st).pixels = st.pixels := by
  unfold renderStep
  by_cases hcol : st.rowSpriteBits x ≠ 0 <;> simp [hcol]

theorem or32_trans {a b c : Nat} (h1 : b = a ∨ b = a ||| 32)
    (h2 : c = b ∨ c = b ||| 32) : c = a ∨ c = a ||| 32 := by
  rcases h1 with h1 | h1 <;> rcases h2 with h2 | h2 <;> rw [h2, h1]
  · exact Or.inl rfl
  · exact Or.inr rfl
  · exact Or.inr rfl
  · exact Or.inr (by rw [Nat.or_assoc, Nat.or_self])

theorem renderLoop_status_or (v : Nat → Nat) (off : Nat) (mag : Bool) (c : Nat) (h : Int) :
    ∀ n sb pb pByte st,
      (renderLoop v off mag c h n sb pb pByte st).status = st.status ∨
      (renderLoop v off mag c h n sb pb pByte st).status = st.status ||| 32 := by
  intro n
  induction n with
  | zero => intro sb pb pByte st; exact Or.inl rfl
  | succ n ih =>
    intro sb pb pByte st
    simp only [renderLoop]
    split
    · exact Or.inl rfl
    · refine or32_trans ?_ (ih (sb+1) _ _ _)
      split
      · exact renderStep_status_or _ _ _
      · exact Or.inl rfl

theorem renderLoop_status_testBit_ne5 (v : Nat → Nat) (off : Nat) (mag : Bool)
    (c : Nat) (h : Int) (n sb pb pByte : Nat) (st : SpriteState) (b : Nat) (hb : b ≠ 5) :
    (renderLoop v off mag c h n sb pb pByte st).status.testBit b = st.status.testBit b := by
  rcases renderLoop_status_or v off mag c h n sb pb pByte st with h1 | h1 <;> rw [h1]
  rw [Nat.testBit_or, testBit_32_of_ne b hb, Bool.or_false]

theorem renderLoop_status_mono5 (v : Nat → Nat) (off : Nat) (mag : Bool)
    (c : Nat) (h : Int) (n sb pb pByte : Nat) (st : SpriteState)
    (h5 : st.status.testBit 5 = true) :
    (renderLoop v off mag c h n sb pb pByte st).status.testBit 5 = true := by
  rcases renderLoop_status_or v off mag c h n sb pb pByte st with h1 | h1 <;> rw [h1]
  · exact h5
  · rw [Nat.testBit_or, h5, Bool.true_or]

theorem renderLoop_rowbits_one (v : Nat → Nat) (off : Nat) (mag : Bool)
    (c : Nat) (h : Int) (x : Nat) :
    ∀ n sb pb pByte st, st.rowSpriteBits x = 1 →
      (renderLoop v off mag c h n sb pb pByte st).rowSpriteBits x = 1 := by
  intro n
  induction n with
  | zero => intro sb pb pByte st hx; exact hx
  | succ n ih =>
    intro sb pb pByte st hx
    simp only [renderLoop]
    split
    · exact hx
    · refine ih (sb+1) _ _ _ ?_
      split
      · by_cases hxx : x = (h + (sb : Int)).toNat
        · rw [hxx]
          exact renderStep_rowbits_self _ _ _
        · rw [renderStep_rowbits_other _ _ _ _ hxx]
          exact hx
      · exact hx

theorem renderLoop_pixels_transparent (v : Nat → Nat) (off : Nat) (mag : Bool)
    (h : Int) :
    ∀ n sb pb pByte st,
      (renderLoop v off mag TMS_TRANSPARENT h n sb pb pByte st).pixels = st.pixels := by
  intro n
  induction n with
  | zero => intro sb pb pByte st; rfl
  | succ n ih =>
    intro sb pb pByte st
    simp only [renderLoop]
    split
    · rfl
    · rw [ih (sb+1)]
      split
      · exact renderStep_pixels_transparent _ _
      · rfl


theorem spritePatternIdx_false (t : Nat) : spritePatternIdx false t = t := rfl

theorem spritePatternIdx_true (t : Nat) : spritePatternIdx true t = t / 2 := rfl

theorem spritePatternByteAt_false (v : Nat → Nat) (off t : Nat) :
    spritePatternByteAt v off false t = if t < 8 then v off else v (off + 16) := rfl

theorem spritePatternByteAt_true (v : Nat → Nat) (off t : Nat) :
    spritePatternByteAt v off true t = if t / 2 < 8 then v off else v (off + 16) := rfl

theorem not_even_cond (sb : Nat) (hodd : ¬(sb % 2 = 1)) :
    ¬((true = false) ∨ sb % 2 = 1) := by
  intro h
  rcases h with h | h
  · exact absurd h (by decide)
  · exact hodd h

theorem patternAdvance_canonical_fst (v : Nat → Nat) (off : Nat) (mag : Bool) (sb : Nat) :
    (patternAdvance v off mag sb (spritePatternIdx mag sb % 8)
      (spritePatternByteAt v off mag sb)).1 = spritePatternIdx mag (sb+1) % 8 := by
  cases mag with
  | false =>
    rw [spritePatternIdx_false, spritePatternIdx_false]
    unfold patternAdvance
    rw [if_pos (Or.inl rfl)]
    by_cases hwrap : sb % 8 + 1 = 8
    · rw [if_pos hwrap]
      show 0 = (sb + 1) % 8
      omega
    · rw [if_neg hwrap]
      show sb % 8 + 1 = (sb + 1) % 8
      omega
  | true =>
    rw [spritePatternIdx_true, spritePatternIdx_true]
    unfold patternAdvance
    by_cases hodd : sb % 2 = 1
    · rw [if_pos (Or.inr hodd)]
      by_cases hwrap : sb / 2 % 8 + 1 = 8
      · rw [if_pos hwrap]
        show 0 = (sb + 1) / 2 % 8
        omega
      · rw [if_neg hwrap]
        show sb / 2 % 8 + 1 = (sb + 1) / 2 % 8
        omega
    · rw [if_neg (not_even_cond sb hodd)]
      show sb / 2 % 8 = (sb + 1) / 2 % 8
      omega

theorem patternAdvance_canonical_snd (v : Nat → Nat) (off : Nat) (mag : Bool) (sb : Nat) :
    (patternAdvance v off mag sb (spritePatternIdx mag sb % 8)
      (spritePatternByteAt v off mag sb)).2 = spritePatternByteAt v off mag (sb+1) := by
  cases mag with
  | false =>
    rw [spritePatternIdx_false, spritePatternByteAt_false, spritePatternByteAt_false]
    unfold patternAdvance
    rw [if_pos (Or.inl rfl)]
    by_cases hwrap : sb % 8 + 1 = 8
    · rw [if_pos hwrap]
      show v (off + 16) = if sb + 1 < 8 then v off else v (off + 16)
      rw [if_neg (by omega : ¬(sb + 1 < 8))]
    · rw [if_neg hwrap]
      show (if sb < 8 then v off else v (off + 16)) =
        if sb + 1 < 8 then v off else v (off + 16)
      by_cases h8 : sb < 8
      · rw [if_pos h8, if_pos (by omega : sb + 1 < 8)]
      · rw [if_neg h8, if_neg (by omega : ¬(sb + 1 < 8))]
  | true =>
    rw [spritePatternIdx_true, spritePatternByteAt_true, spritePatternByteAt_true]
    unfold patternAdvance
    by_cases hodd : sb % 2 = 1
    · rw [if_pos (Or.inr hodd)]
      by_cases hwrap : sb / 2 % 8 + 1 = 8
      · rw [if_pos hwrap]
        show v (off + 16) = if (sb + 1) / 2 < 8 then v off else v (off + 16)
        rw [if_neg (by omega : ¬((sb + 1) / 2 < 8))]
      · rw [if_neg hwrap]
        show (if sb / 2 < 8 then v off else v (off + 16)) =
          if (sb + 1) / 2 < 8 then v off else v (off + 16)
        by_cases h8 : sb / 2 < 8
        · rw [if_pos h8, if_pos (by omega : (sb + 1) / 2 < 8)]
        · rw [if_neg h8, if_neg (by omega : ¬((sb + 1) / 2 < 8))]
    · rw [if_neg (not_even_cond sb hodd)]
      show (if sb / 2 < 8 then v off else v (off + 16)) =
        if (sb + 1) / 2 < 8 then v off else v (off + 16)
      by_cases h8 : sb / 2 < 8
      · rw [if_pos h8, if_pos (by omega : (sb + 1) / 2 < 8)]
      · rw [if_neg h8, if_neg (by omega : ¬((sb + 1) / 2 < 8))]

theorem renderLoop_covers (v : Nat → Nat) (off : Nat) (mag : Bool) (c : Nat) (h : Int)
    (x : Nat) (hx : x < 256) :
    ∀ (n sb : Nat) (st : SpriteState) (tb : Nat), sb ≤ tb → tb < sb + n →
      h + (tb : Int) = (x : Int) →
      spritePatternBitSet v off mag tb = true →
      (renderLoop v off mag c h n sb (spritePatternIdx mag sb % 8)
        (spritePatternByteAt v off mag sb) st).rowSpriteBits x = 1 ∧
      (st.rowSpriteBits x ≠ 0 →
        (renderLoop v off mag c h n sb (spritePatternIdx mag sb % 8)
          (spritePatternByteAt v off mag sb) st).status.testBit 5 = true) := by
  intro n
  induction n with
  | zero =>
    intro sb st tb hsb htb htx hbit
    omega
  | succ n ih =>
    intro sb st tb hsb htb htx hbit
    have hsble : (sb : Int) ≤ (tb : Int) := by exact_mod_cast hsb
    have hnobrk : ¬((TMS9918A_PIXELS_X : Int) ≤ h + (sb : Int)) := by
      show ¬(((256 : Nat) : Int) ≤ h + (sb : Int))
      omega
    simp only [renderLoop]
    rw [if_neg hnobrk]
    rw [patternAdvance_canonical_fst, patternAdvance_canonical_snd]
    rcases Nat.eq_or_lt_of_le hsb with heq | hlt
    · subst heq
      have hcondT : 0 ≤ h + (sb : Int) ∧
          (spritePatternByteAt v off mag sb).testBit
            (7 - spritePatternIdx mag sb % 8) = true := by
        refine ⟨by omega, hbit⟩
      rw [if_pos hcondT]
      have hxeq : (h + (sb : Int)).toNat = x := by omega
      constructor
      · refine renderLoop_rowbits_one v off mag c h x n (sb+1) _ _ _ ?_
        rw [hxeq]
        exact renderStep_rowbits_self _ _ _
      · intro hrow
        refine renderLoop_status_mono5 v off mag c h n (sb+1) _ _ _ ?_
        have hst : (renderStep c (h + (sb : Int)).toNat st).status = st.status ||| 32 := by
          rw [hxeq]
          exact renderStep_status_of_hit _ _ _ hrow
        rw [hst, Nat.testBit_or]
        have h32 : Nat.testBit 32 5 = true := by decide
        rw [h32, Bool.or_true]
    · by_cases hdraw : 0 ≤ h + (sb : Int) ∧
          (spritePatternByteAt v off mag sb).testBit
            (7 - spritePatternIdx mag sb % 8) = true
      · rw [if_pos hdraw]
        have hne : x ≠ (h + (sb : Int)).toNat := by
          have h0 := hdraw.1
          omega
        have hfr : (renderStep c (h + (sb : Int)).toNat st).rowSpriteBits x =
            st.rowSpriteBits x := renderStep_rowbits_other _ _ _ _ hne
        have hih := ih (sb+1) (renderStep c (h + (sb : Int)).toNat st) tb
          (by omega) (by omega) htx hbit
        exact ⟨hih.1, fun hrow => hih.2 (by rw [hfr]; exact hrow)⟩
      · rw [if_neg hdraw]
        exact ih (sb+1) st tb (by omega) (by omega) htx hbit

theorem bool_eq_true_of_ne_false {b : Bool} (h : ¬(b = false)) : b = true := by
  cases b
  · exact absurd rfl h
  · rfl

theorem spritePatternIdx_zero (m : Bool) : spritePatternIdx m 0 = 0 := by
  cases m <;> rfl

theorem spritePatternByteAt_zero (v : Nat → Nat) (off : Nat) (m : Bool) :
    spritePatternByteAt v off m 0 = v off := by
  cases m <;> rfl

theorem countVisible_succ_visible (tms : VrEmuTms9918a) (y n : Nat)
    (h : spriteVisibleB tms y n = true) :
    countVisible tms y (n+1) = countVisible tms y n + 1 := by
  show countVisible tms y n + (if spriteVisibleB tms y n = true then 1 else 0) =
    countVisible tms y n + 1
  rw [h]
  simp

theorem countVisible_succ_invisible (tms : VrEmuTms9918a) (y n : Nat)
    (h : spriteVisibleB tms y n = false) :
    countVisible tms y (n+1) = countVisible tms y n := by
  show countVisible tms y n + (if spriteVisibleB tms y n = true then 1 else 0) =
    countVisible tms y n
  rw [h]
  simp

theorem countVisible_mono (tms : VrEmuTms9918a) (y : Nat) :
    ∀ a b, a ≤ b → countVisible tms y a ≤ countVisible tms y b := by
  intro a b
  induction b with
  | zero =>
    intro h
    have ha : a = 0 := by omega
    rw [ha]
  | succ n ih =>
    intro h
    rcases Nat.lt_or_ge a (n+1) with h1 | h1
    · refine Nat.le_trans (ih (by omega)) ?_
      show countVisible tms y n ≤
        countVisible tms y n + (if spriteVisibleB tms y n = true then 1 else 0)
      exact Nat.le_add_right _ _
    · have ha : a = n + 1 := by omega
      rw [ha]

/-- The status bits of the sprite state immediately after the optional
occupancy-bitmap clear equal those before it. -/
theorem clearRowBits_status (st : SpriteState) (ss : Nat) :
    (if ss = 0 then
      { st with rowSpriteBits := fun x => if x < 256 then 0 else st.rowSpriteBits x }
      else st).status = st.status := by
  split <;> rfl

theorem spriteLoop_status_mono5 (tms : VrEmuTms9918a) (y : Nat) :
    ∀ fuel i ss st, st.status.testBit 5 = true →
      (spriteLoop tms y fuel i ss st).status.testBit 5 = true := by
  intro fuel
  induction fuel with
  | zero => intro i ss st h5; exact h5
  | succ n ih =>
    intro i ss st h5
    simp only [spriteLoop]
    by_cases hterm : spriteVPosRaw tms i = 0xD0
    · rw [if_pos hterm]
      by_cases h6 : st.status.testBit 6 = true
      · rw [if_pos h6]
        exact h5
      · rw [if_neg h6]
        show (st.status ||| i).testBit 5 = true
        rw [Nat.testBit_or, h5, Bool.true_or]
    · rw [if_neg hterm]
      by_cases hvis : spriteVisibleB tms y i = false
      · rw [if_pos hvis]
        exact ih _ _ _ h5
      · rw [if_neg hvis]
        by_cases hfive : 4 < ss + 1
        · rw [if_pos hfive]
          by_cases h6 : (if ss = 0 then
              { st with rowSpriteBits := fun x => if x < 256 then 0 else st.rowSpriteBits x }
              else st).status.testBit 6 = true
          · rw [if_pos h6, clearRowBits_status]
            exact h5
          · rw [if_neg h6]
            show ((if ss = 0 then
                { st with rowSpriteBits := fun x => if x < 256 then 0 else st.rowSpriteBits x }
                else st).status ||| (64 ||| i)).testBit 5 = true
            rw [clearRowBits_status, Nat.testBit_or, h5, Bool.true_or]
        · rw [if_neg hfive]
          refine ih _ _ _ ?_
          refine renderLoop_status_mono5 _ _ _ _ _ _ _ _ _ _ ?_
          rw [clearRowBits_status]
          exact h5

/-- The 5S/index portion of the status contract for the fifth-sprite
claim, relative to the sprite state at loop entry. -/
def FifthProp (k : Nat) (stA R : SpriteState) : Prop :=
  (stA.status.testBit 6 = false → R.status.testBit 6 = true ∧
    ∀ b, b < 5 → R.status.testBit b = (stA.status.testBit b || k.testBit b)) ∧
  (stA.status.testBit 6 = true → R.status.testBit 6 = true ∧
    ∀ b, b < 5 → R.status.testBit b = stA.status.testBit b)

theorem fifthProp_compose {k : Nat} {stA stB R : SpriteState}
    (hAB : ∀ b, b ≠ 5 → stB.status.testBit b = stA.status.testBit b)
    (h : FifthProp k stB R) : FifthProp k stA R := by
  constructor
  · intro h6
    have h6b : stB.status.testBit 6 = false := by
      rw [hAB 6 (by omega)]
      exact h6
    refine ⟨(h.1 h6b).1, fun b hb => ?_⟩
    rw [(h.1 h6b).2 b hb, hAB b (by omega)]
  · intro h6
    have h6b : stB.status.testBit 6 = true := by
      rw [hAB 6 (by omega)]
      exact h6
    refine ⟨(h.2 h6b).1, fun b hb => ?_⟩
    rw [(h.2 h6b).2 b hb, hAB b (by omega)]

theorem spriteLoop_fifth (tms : VrEmuTms9918a) (y k : Nat)
    (hterm : ∀ j, j ≤ k → spriteVPosRaw tms j ≠ 0xD0)
    (hvisk : spriteVisibleB tms y k = true)
    (hcount : countVisible tms y k = 4) :
    ∀ fuel i ss st, i ≤ k → k < i + fuel → ss = countVisible tms y i →
      FifthProp k st (spriteLoop tms y fuel i ss st) := by
  intro fuel
  induction fuel with
  | zero =>
    intro i ss st hik hkf hss
    exact absurd hkf (by omega)
  | succ n ih =>
    intro i ss st hik hkf hss
    simp only [spriteLoop]
    rw [if_neg (hterm i hik)]
    rcases Nat.eq_or_lt_of_le hik with heq | hlt
    · subst heq
      rw [if_neg (by rw [hvisk]; exact fun hc => nomatch hc)]
      have hss4 : ss = 4 := by rw [hss, hcount]
      subst hss4
      rw [if_neg (by omega : ¬((4:Nat) = 0)), if_pos (by omega : 4 < 4 + 1)]
      constructor
      · intro h6
        rw [if_neg (by rw [h6]; exact fun hc => nomatch hc)]
        constructor
        · show (st.status ||| (64 ||| i)).testBit 6 = true
          rw [Nat.testBit_or, Nat.testBit_or, h6]
          have h64 : Nat.testBit 64 6 = true := by decide
          rw [h64]
          rfl
        · intro b hb
          show (st.status ||| (64 ||| i)).testBit b = (st.status.testBit b || i.testBit b)
          rw [Nat.testBit_or, Nat.testBit_or, testBit_64_of_lt b (by omega), Bool.false_or]
      · intro h6
        rw [if_pos h6]
        exact ⟨h6, fun b hb => rfl⟩
    · by_cases hvis : spriteVisibleB tms y i = false
      · rw [if_pos hvis]
        exact ih (i+1) ss st (by omega) (by omega)
          (by rw [hss, countVisible_succ_invisible tms y i hvis])
      · rw [if_neg hvis]
        have hvist : spriteVisibleB tms y i = true := bool_eq_true_of_ne_false hvis
        have hcnt1 : countVisible tms y (i+1) = countVisible tms y i + 1 :=
          countVisible_succ_visible tms y i hvist
        have hle4 : countVisible tms y (i+1) ≤ 4 := by
          rw [← hcount]
          exact countVisible_mono tms y _ _ (by omega)
        have hss3 : ¬(4 < ss + 1) := by omega
        rw [if_neg hss3]
        refine fifthProp_compose ?_ (ih (i+1) (ss+1) _ (by omega) (by omega)
          (by rw [hcnt1, hss]))
        intro b hb
        rw [renderLoop_status_testBit_ne5 _ _ _ _ _ _ _ _ _ _ b hb, clearRowBits_status]

theorem spriteCoversX_elim (tms : VrEmuTms9918a) (y i x : Nat)
    (h : spriteCoversX tms y i x = true) :
    ∃ tb, tb < spriteSizePx tms ∧ spriteHPosD tms i + (tb : Int) = (x : Int) ∧
      spritePatternBitSet tms.vram (spritePatternOffsetD tms y i)
        (decide (tmsSpriteMag tms = 1)) tb = true := by
  rw [spriteCoversX, List.any_eq_true] at h
  obtain ⟨tb, htbmem, htb⟩ := h
  rw [Bool.and_eq_true] at htb
  exact ⟨tb, List.mem_range.mp htbmem, of_decide_eq_true htb.1, htb.2⟩

theorem renderSprite_covers (tms : VrEmuTms9918a) (y i x : Nat) (hx : x < 256)
    (hcov : spriteCoversX tms y i x = true) (st : SpriteState) :
    (renderLoop tms.vram (spritePatternOffsetD tms y i) (decide (tmsSpriteMag tms = 1))
        (spriteColorD tms i) (spriteHPosD tms i) (spriteSizePx tms) 0 0
        (tms.vram (spritePatternOffsetD tms y i)) st).rowSpriteBits x = 1 ∧
    (st.rowSpriteBits x ≠ 0 →
      (renderLoop tms.vram (spritePatternOffsetD tms y i) (decide (tmsSpriteMag tms = 1))
          (spriteColorD tms i) (spriteHPosD tms i) (spriteSizePx tms) 0 0
          (tms.vram (spritePatternOffsetD tms y i)) st).status.testBit 5 = true) := by
  obtain ⟨tb, htblt, htbx, htbbit⟩ := spriteCoversX_elim tms y i x hcov
  have hcv := renderLoop_covers tms.vram (spritePatternOffsetD tms y i)
    (decide (tmsSpriteMag tms = 1)) (spriteColorD tms i) (spriteHPosD tms i) x hx
    (spriteSizePx tms) 0 st tb (by omega) (by omega) htbx htbbit
  rw [spritePatternIdx_zero, spritePatternByteAt_zero] at hcv
  exact hcv

theorem spriteLoop_collision_from (tms : VrEmuTms9918a) (y j x : Nat) (hx : x < 256)
    (hterm : ∀ q, q ≤ j → spriteVPosRaw tms q ≠ 0xD0)
    (hvisj : spriteVisibleB tms y j = true)
    (hcountj : countVisible tms y j ≤ 3)
    (hcovj : spriteCoversX tms y j x = true) :
    ∀ fuel p ss st, p ≤ j → j < p + fuel → ss = countVisible tms y p → 1 ≤ ss →
      st.rowSpriteBits x = 1 →
      (spriteLoop tms y fuel p ss st).status.testBit 5 = true := by
  intro fuel
  induction fuel with
  | zero =>
    intro p ss st hpj hjf hss hss1 hrow
    exact absurd hjf (by omega)
  | succ n ih =>
    intro p ss st hpj hjf hss hss1 hrow
    simp only [spriteLoop]
    rw [if_neg (hterm p hpj)]
    rw [if_neg (by omega : ¬(ss = 0))]
    rcases Nat.eq_or_lt_of_le hpj with heq | hlt
    · subst heq
      rw [if_neg (by rw [hvisj]; exact fun hc => nomatch hc)]
      rw [if_neg (by omega : ¬(4 < ss + 1))]
      refine spriteLoop_status_mono5 tms y n (p+1) (ss+1) _ ?_
      exact (renderSprite_covers tms y p x hx hcovj st).2 (by omega)
    · by_cases hvis : spriteVisibleB tms y p = false
      · rw [if_pos hvis]
        exact ih (p+1) ss st (by omega) (by omega)
          (by rw [hss, countVisible_succ_invisible tms y p hvis]) hss1 hrow
      · rw [if_neg hvis]
        have hvist : spriteVisibleB tms y p = true := bool_eq_true_of_ne_false hvis
        have hcnt1 : countVisible tms y (p+1) = countVisible tms y p + 1 :=
          countVisible_succ_visible tms y p hvist
        have hle : countVisible tms y (p+1) ≤ countVisible tms y j :=
          countVisible_mono tms y _ _ (by omega)
        rw [if_neg (by omega : ¬(4 < ss + 1))]
        refine ih (p+1) (ss+1) _ (by omega) (by omega) (by rw [hcnt1, hss]) (by omega) ?_
        exact renderLoop_rowbits_one _ _ _ _ _ x _ _ _ _ _ hrow

theorem spriteLoop_collision (tms : VrEmuTms9918a) (y i j x : Nat) (hx : x < 256)
    (hij : i < j)
    (hterm : ∀ q, q ≤ j → spriteVPosRaw tms q ≠ 0xD0)
    (hvisi : spriteVisibleB tms y i = true)
    (hvisj : spriteVisibleB tms y j = true)
    (hcountj : countVisible tms y j ≤ 3)
    (hcovi : spriteCoversX tms y i x = true)
    (hcovj : spriteCoversX tms y j x = true) :
    ∀ fuel p ss st, p ≤ i → j < p + fuel → ss = countVisible tms y p →
      (spriteLoop tms y fuel p ss st).status.testBit 5 = true := by
  intro fuel
  induction fuel with
  | zero =>
    intro p ss st hpi hjf hss
    exact absurd hjf (by omega)
  | succ n ih =>
    intro p ss st hpi hjf hss
    simp only [spriteLoop]
    rw [if_neg (hterm p (by omega))]
    rcases Nat.eq_or_lt_of_le hpi with heq | hlt
    · subst heq
      rw [if_neg (by rw [hvisi]; exact fun hc => nomatch hc)]
      have hcnt1 : countVisible tms y (p+1) = countVisible tms y p + 1 :=
        countVisible_succ_visible tms y p hvisi
      have hle : countVisible tms y (p+1) ≤ countVisible tms y j :=
        countVisible_mono tms y _ _ (by omega)
      rw [if_neg (by omega : ¬(4 < ss + 1))]
      refine spriteLoop_collision_from tms y j x hx hterm hvisj hcountj hcovj
        n (p+1) (ss+1) _ (by omega) (by omega) (by rw [hcnt1, hss]) (by omega) ?_
      exact (renderSprite_covers tms y p x hx hcovi _).1
    · by_cases hvis : spriteVisibleB tms y p = false
      · rw [if_pos hvis]
        exact ih (p+1) ss st (by omega) (by omega)
          (by rw [hss, countVisible_succ_invisible tms y p hvis])
      · rw [if_neg hvis]
        have hvist : spriteVisibleB tms y p = true := bool_eq_true_of_ne_false hvis
        have hcnt1 : countVisible tms y (p+1) = countVisible tms y p + 1 :=
          countVisible_succ_visible tms y p hvist
        have hle : countVisible tms y (p+1) ≤ countVisible tms y j :=
          countVisible_mono tms y _ _ (by omega)
        rw [if_neg (by omega : ¬(4 < ss + 1))]
        exact ih (p+1) (ss+1) _ (by omega) (by omega) (by rw [hcnt1, hss])

/-- claim C5: during a sprite scanline pass, if five or more sprite
slots (before any terminator slot) are visible on the scanline, then
processing stops at the fifth visible sprite k: status bit 6 (5S)
becomes set and k is OR-ed into status bits 0..4, but only if 5S was
not already set (when 5S was already set, bit 6 stays set and bits 0..4
are untouched). The status the pass starts from is the entry status,
cleared first when y = 0. -/
theorem claim_C5_fifth_sprite_flag (tms : VrEmuTms9918a) (y : Nat) (pixels : Pixels)
    (k : Nat) (hk : k < 32)
    (hterm : ∀ j, j ≤ k → spriteVPosRaw tms j ≠ 0xD0)
    (hvis : spriteVisibleB tms y k = true)
    (hcount : countVisible tms y k = 4) :
    (((if y = 0 then 0 else tms.status) : Nat).testBit 6 = false →
      (vrEmuTms9918aOutputSprites tms y pixels).1.status.testBit 6 = true ∧
      ∀ b, b < 5 → (vrEmuTms9918aOutputSprites tms y pixels).1.status.testBit b =
        (((if y = 0 then 0 else tms.status) : Nat).testBit b || k.testBit b)) ∧
    (((if y = 0 then 0 else tms.status) : Nat).testBit 6 = true →
      (vrEmuTms9918aOutputSprites tms y pixels).1.status.testBit 6 = true ∧
      ∀ b, b < 5 → (vrEmuTms9918aOutputSprites tms y pixels).1.status.testBit b =
        ((if y = 0 then 0 else tms.status) : Nat).testBit b) := by
  exact spriteLoop_fifth tms y k hterm hvis hcount 32 0 0
    { status := if y = 0 then 0 else tms.status
      rowSpriteBits := tms.rowSpriteBits
      pixels := pixels }
    (by omega) (by omega) rfl

/-- A state whose sprite attribute table (at VRAM 0, from the zeroed
registers) holds 32 sprites that are all visible on scanline 1. -/
def fiveSpriteState : VrEmuTms9918a :=
  { vram := fun _ => 0
    registers := fun _ => 0
    status := 0
    lastMode := 0
    currentAddress := 0
    mode := TmsMode.graphicsI
    rowSpriteBits := fun _ => 0 }

/-- Witness for claim C5: with 32 visible sprites on scanline 1, the
sprite pass sets 5S and stores the fifth slot index 4 (bit 2). -/
theorem claim_C5_fifth_sprite_flag_witness :
    (4:Nat) < 32 ∧ spriteVisibleB fiveSpriteState 1 4 = true ∧
    countVisible fiveSpriteState 1 4 = 4 ∧
    (vrEmuTms9918aOutputSprites fiveSpriteState 1 (fun _ => 0)).1.status.testBit 6 = true ∧
    (vrEmuTms9918aOutputSprites fiveSpriteState 1 (fun _ => 0)).1.status.testBit 2 = true := by
  refine ⟨by omega, by decide, by decide, ?_, ?_⟩
  · exact ((claim_C5_fifth_sprite_flag fiveSpriteState 1 (fun _ => 0) 4 (by omega)
      (by decide) (by decide) (by decide)).1 (by decide)).1
  · refine (((claim_C5_fifth_sprite_flag fiveSpriteState 1 (fun _ => 0) 4 (by omega)
      (by decide) (by decide) (by decide)).1 (by decide)).2 2 (by omega)).trans ?_
    decide

/-- claim C6: whenever two sprites rendered on the same scanline pass
(the m-th and n-th visible slots with n at most the fourth, before any
terminator) each have a set pattern bit at the same on-screen column
x < 256, the pass sets status bit 5 (COL), regardless of either
sprite's color (so including transparent sprites, which participate in
the accounting); and the walk of a transparent sprite never writes to
the pixel buffer. -/
theorem claim_C6_sprite_collision (tms : VrEmuTms9918a) (y : Nat) (pixels : Pixels)
    (i j x : Nat) :
    ((x < 256 → i < j → j < 32 →
      (∀ q, q ≤ j → spriteVPosRaw tms q ≠ 0xD0) →
      spriteVisibleB tms y i = true → spriteVisibleB tms y j = true →
      countVisible tms y j ≤ 3 →
      spriteCoversX tms y i x = true → spriteCoversX tms y j x = true →
      (vrEmuTms9918aOutputSprites tms y pixels).1.status.testBit 5 = true)) ∧
    (∀ (v : Nat → Nat) (off : Nat) (mag : Bool) (hp : Int) (n sb pb pByte : Nat)
      (st : SpriteState),
      (renderLoop v off mag TMS_TRANSPARENT hp n sb pb pByte st).pixels = st.pixels) := by
  constructor
  · intro hx hij hj32 hterm hvisi hvisj hcount hcovi hcovj
    exact spriteLoop_collision tms y i j x hx hij hterm hvisi hvisj hcount hcovi hcovj
      32 0 0 _ (by omega) (by omega) rfl
  · intro v off mag hp n sb pb pByte st
    exact renderLoop_pixels_transparent v off mag hp n sb pb pByte st

/-- A state with two overlapping visible sprites (slots 0 and 1) on
scanline 1: sprite attribute table at VRAM 128 (R5 = 1), both sprites at
(vPos, hPos) = (0, 64) with pattern name 0, whose pattern byte 0x80 sits
at VRAM 0. -/
def collisionState : VrEmuTms9918a :=
  { vram := fun a =>
      if a = 0 then 0x80
      else if a = 128 then 0 else if a = 129 then 64
      else if a = 130 then 0 else if a = 131 then 1
      else if a = 132 then 0 else if a = 133 then 64
      else if a = 134 then 0 else if a = 135 then 2
      else 0xD0
    registers := fun r => if r = 5 then 1 else 0
    status := 0
    lastMode := 0
    currentAddress := 0
    mode := TmsMode.graphicsI
    rowSpriteBits := fun _ => 0 }

/-- Witness for claim C6: the two overlapping sprites of collisionState
set COL on scanline 1, and the transparent walk leaves the pixel buffer
untouched. -/
theorem claim_C6_sprite_collision_witness :
    spriteCoversX collisionState 1 0 64 = true ∧
    spriteCoversX collisionState 1 1 64 = true ∧
    (vrEmuTms9918aOutputSprites collisionState 1 (fun _ => 0)).1.status.testBit 5 = true ∧
    (renderLoop collisionState.vram 0 false TMS_TRANSPARENT 0 8 0 0 0x80
      { status := 0, rowSpriteBits := fun _ => 0, pixels := fun _ => 0 }).pixels =
      (fun _ => 0) := by
  refine ⟨by decide, by decide, ?_, ?_⟩
  · exact (claim_C6_sprite_collision collisionState 1 (fun _ => 0) 0 1 64).1
      (by omega) (by omega) (by omega) (by decide) (by decide) (by decide)
      (by decide) (by decide) (by decide)
  · exact (claim_C6_sprite_collision collisionState 1 (fun _ => 0) 0 1 64).2
      collisionState.vram 0 false 0 8 0 0 0x80
      { status := 0, rowSpriteBits := fun _ => 0, pixels := fun _ => 0 }
